/- Verification development for the bluefog decentralized communication library.

   The repository ships the Python sources of the interactive runner
   (bluefog/run/interactive_run.py), a TensorFlow ops test and two PyTorch
   example programs.  The communication engine itself (init/rank/size,
   allreduce, neighbor_allreduce, window operations) is exercised by the
   tests and examples but its implementation is not part of the source
   tree; those operations are modelled here from the specification, while
   the interactive runner is embedded directly from its Python source. -/
import Mathlib

namespace Bluefog

/-- Elementwise addition of two equally shaped numeric buffers.  Buffers are
modelled as lists of exact rationals. -/
def addBuf (a b : List ℚ) : List ℚ := List.zipWith (· + ·) a b

/-- Scaling of a buffer by a weight. -/
def scaleBuf (c : ℚ) (b : List ℚ) : List ℚ := b.map (fun x => c * x)

/-- Deterministic elementwise accumulation of a list of buffers, folding in a
fixed left-to-right (rank) order, as the spec requires a fixed deterministic
accumulation order. -/
def sumBufs : List (List ℚ) → List ℚ
  | [] => []
  | b :: rest => rest.foldl addBuf b

/-- Reduction operation selector of the CollectiveEngine. -/
inductive ReduceOp where
  | sum
  | average
deriving DecidableEq

/-- Modelled from the spec: the CollectiveEngine operation
`allreduce(buffer, op=sum|average, name)` of section 4.3 is not in the
source tree (only its callers in the test and example files are).  Every
rank contributes one buffer; the sum is accumulated elementwise in a fixed
deterministic order and the average divides the summed result by world size
once, after summation.  The same result buffer is returned to every
participating rank. -/
def allreduce (op : ReduceOp) (bufs : List (List ℚ)) : List ℚ :=
  match op with
  | ReduceOp.sum => sumBufs bufs
  | ReduceOp.average => (sumBufs bufs).map (fun x => x / (bufs.length : ℚ))

/-- Modelled from the spec: the TopologyManager of section 4.2 is not in the
source tree.  A topology is a directed graph over ranks, answering the
`inNeighborRanks()` and `outNeighborRanks()` queries as ordered lists. -/
structure Topology where
  nranks : Nat
  inNeighbors : Nat → List Nat
  outNeighbors : Nat → List Nat

/-- Modelled from the spec: the NeighborExchangeEngine operation
`neighborAllreduce(buffer, name, weights)` of section 4.4 is not in the
source tree (only its callers in the example programs are).  The result at
the calling rank r aggregates the weighted contributions of exactly the
ranks in `inNeighbors r`, in their declared order; weights are applied
exactly as given, with no renormalization.  Contributions of ranks outside
`inNeighbors r` do not enter the aggregation. -/
def neighborAllreduce (T : Topology) (w : Nat → ℚ) (contrib : Nat → List ℚ)
    (r : Nat) : List ℚ :=
  sumBufs ((T.inNeighbors r).map (fun s => scaleBuf (w s) (contrib s)))

/-- Modelled from the spec: a call to neighborAllreduce at rank r updates
only the caller's visible result; section 4.4 states the call does not
deliver a result to out-neighbors as a side effect.  The per-rank visible
results are a map from rank to buffer, and the step of rank r calling the
operation replaces only entry r. -/
def neighborAllreduceStep (T : Topology) (w : Nat → ℚ) (contrib : Nat → List ℚ)
    (st : Nat → List ℚ) (r : Nat) : Nat → List ℚ :=
  fun q => if q = r then neighborAllreduce T w contrib r else st q

/-- Modelled from the spec: default weights, when unspecified, are uniform
over the in-neighbor set, each contribution weighted by one over the number
of in-neighbors (section 4.4). -/
def defaultWeights (T : Topology) (r : Nat) : Nat → ℚ :=
  fun _ => 1 / ((T.inNeighbors r).length : ℚ)

/-- neighborAllreduce with the default uniform weights. -/
def neighborAllreduceDefault (T : Topology) (contrib : Nat → List ℚ) (r : Nat) : List ℚ :=
  neighborAllreduce T (defaultWeights T r) contrib r

/-- The undirected 3-rank ring 0 -> 1 -> 2 -> 0 of the C3 scenario, with each
rank listed as its own in-neighbor. -/
def ringTopology3 : Topology :=
  ⟨3, fun r => [r % 3, (r + 1) % 3, (r + 2) % 3],
    fun r => [r % 3, (r + 1) % 3, (r + 2) % 3]⟩

/-- The C3 scenario contributions: each rank holds the scalar buffer equal to
its rank index. -/
def ringContrib : Nat → List ℚ := fun r => [(r : ℚ)]

/-- A small concrete topology used by witnesses: every rank has the single
in-neighbor 0. -/
def demoTopology : Topology := ⟨3, fun _ => [0], fun _ => [0]⟩

/-- Concrete unit weights used by witnesses. -/
def demoW : Nat → ℚ := fun _ => 1

/-- Concrete weights of value two used by witnesses. -/
def demoW2 : Nat → ℚ := fun _ => 2

/-- Concrete contributions used by witnesses; rank 5 holds a singleton one. -/
def demoC1 : Nat → List ℚ := fun s => if s = 5 then [1] else [2]

/-- Concrete contributions used by witnesses; rank 5 holds a singleton three
and every other rank agrees with demoC1. -/
def demoC2 : Nat → List ℚ := fun s => if s = 5 then [3] else [2]

/-- The error taxonomy of section 7. -/
inductive BfError where
  | notInitialized
  | alreadyInitialized
  | invalidTopology
  | shapeMismatch
  | duplicateWindow
  | windowNotFound
  | windowInUse
  | unknownDestination
  | peerUnreachable
  | timeoutExpired
deriving DecidableEq

/-- Modelled from the spec: the RankRegistry of section 4.1 is not in the
source tree (only the callers of `bf.init`, `bf.rank` and `bf.size` are).
Its state is the optionally established pair of this rank and the world
size. -/
structure RankRegistry where
  st : Option (Nat × Nat)
deriving DecidableEq

/-- The registry state of a process before any call to init. -/
def freshRegistry : RankRegistry := ⟨none⟩

/-- Modelled from the spec: `init()` establishes rank and world size exactly
once per process lifetime; a second call without an intervening shutdown
fails with AlreadyInitialized (section 4.1). -/
def init (r n : Nat) (reg : RankRegistry) : Except BfError RankRegistry :=
  match reg.st with
  | some _ => Except.error BfError.alreadyInitialized
  | none => Except.ok ⟨some (r, n)⟩

/-- Modelled from the spec: `shutdown()` tears the registry down; after it,
rank and size queries fail again (section 4.1). -/
def shutdown (reg : RankRegistry) : Except BfError RankRegistry :=
  match reg.st with
  | some _ => Except.ok ⟨none⟩
  | none => Except.error BfError.notInitialized

/-- Modelled from the spec: `rank()` is valid only between init and shutdown
and fails with NotInitialized otherwise (section 4.1). -/
def rank (reg : RankRegistry) : Except BfError Nat :=
  match reg.st with
  | some p => Except.ok p.1
  | none => Except.error BfError.notInitialized

/-- Modelled from the spec: `size()` is valid only between init and shutdown
and fails with NotInitialized otherwise (section 4.1). -/
def size (reg : RankRegistry) : Except BfError Nat :=
  match reg.st with
  | some p => Except.ok p.2
  | none => Except.error BfError.notInitialized

/-- One accumulation message pushed into a window by `winAccumulate`: the
sender weight and the sent buffer (section 4.5). -/
structure Accum where
  weight : ℚ
  buffer : List ℚ
deriving DecidableEq

/-- Applying one accumulation adds weight times buffer into the window
value. -/
def applyAccum (v : List ℚ) (a : Accum) : List ℚ := addBuf v (scaleBuf a.weight a.buffer)

/-- Modelled from the spec: the WindowManager window state of sections 4.5
and 9 is not in the source tree (only the callers of `bf.win_create`,
`bf.win_accumulate` and `bf.win_sync_then_collect` are).  A window holds the
accumulated value, the localSnapshot visible to reads outside a synchronize,
the inbound queue of pending remote accumulations, and the version counter
bumped per synchronize. -/
structure Window where
  value : List ℚ
  localSnapshot : List ℚ
  pending : List Accum
  version : Nat
deriving DecidableEq

/-- Modelled from the spec: delivery of one remote `winAccumulate` message
enqueues it on the window's inbound queue; it becomes observable only after
the owner synchronizes (sections 4.5 and 9). -/
def winAccumulateRecv (win : Window) (a : Accum) : Window :=
  ⟨win.value, win.localSnapshot, win.pending ++ [a], win.version⟩

/-- Modelled from the spec: `winSyncThenCollect(name)` drains and applies
every pending accumulation, returns the resulting buffer, stores it as the
new localSnapshot and bumps the version (section 4.5). -/
def winSyncThenCollect (win : Window) : List ℚ × Window :=
  (win.pending.foldl applyAccum win.value,
    ⟨win.pending.foldl applyAccum win.value,
      win.pending.foldl applyAccum win.value, [], win.version + 1⟩)

/-- Modelled from the spec: a read outside winSyncThenCollect sees the
localSnapshot from the last successful synchronize (section 4.5). -/
def winRead (win : Window) : List ℚ := win.localSnapshot

/-- Delivery of a list of accumulation messages, in order. -/
def deliverAll (win : Window) (msgs : List Accum) : Window :=
  msgs.foldl winAccumulateRecv win

/-- A concrete synchronized scalar window used by witnesses. -/
def demoWindow : Window := ⟨[0], [0], [], 0⟩

/-- A concrete accumulation message used by witnesses. -/
def demoAccA : Accum := ⟨1, [5]⟩

/-- A second concrete accumulation message used by witnesses. -/
def demoAccB : Accum := ⟨2, [3]⟩

/-- Modelled from the spec: the shape validation of `allreduce` (sections
4.3 and 7) is not in the source tree.  Each rank passes a buffer; when the
shapes disagree the call fails with ShapeMismatch at every rank before any
network transfer, and no default result is substituted.  The boolean records
whether network transfer took place. -/
def allreduceChecked (op : ReduceOp) (bufs : List (List ℚ)) :
    List (Except BfError (List ℚ)) × Bool :=
  if bufs.all (fun b => b.length == (bufs.headD []).length) then
    (bufs.map (fun _ => Except.ok (allreduce op bufs)), true)
  else
    (bufs.map (fun _ => Except.error BfError.shapeMismatch), false)

end Bluefog

namespace Bluefog

theorem addBuf_length (a b : List ℚ) : (addBuf a b).length = min a.length b.length :=
  List.length_zipWith _ a b

theorem addBuf_getD (a b : List ℚ) (i : Nat) (ha : i < a.length) (hb : i < b.length) :
    (addBuf a b).getD i 0 = a.getD i 0 + b.getD i 0 := by
  have h : i < (addBuf a b).length := by
    rw [addBuf_length]; omega
  rw [List.getD_eq_getElem _ _ h, List.getD_eq_getElem _ _ ha, List.getD_eq_getElem _ _ hb]
  simp [addBuf]

theorem scaleBuf_length (c : ℚ) (b : List ℚ) : (scaleBuf c b).length = b.length := by
  simp [scaleBuf]

theorem scaleBuf_getD (c : ℚ) (b : List ℚ) (i : Nat) (h : i < b.length) :
    (scaleBuf c b).getD i 0 = c * b.getD i 0 := by
  have h2 : i < (scaleBuf c b).length := by rw [scaleBuf_length]; exact h
  rw [List.getD_eq_getElem _ _ h2, List.getD_eq_getElem _ _ h]
  simp [scaleBuf]

theorem foldl_addBuf_length (bufs : List (List ℚ)) (a : List ℚ) (m : Nat)
    (h0 : a.length = m) (h : ∀ b ∈ bufs, b.length = m) :
    (bufs.foldl addBuf a).length = m := by
  induction bufs generalizing a with
  | nil => simpa using h0
  | cons b rest ih =>
      rw [List.foldl_cons]
      apply ih
      · rw [addBuf_length, h0, h b (by simp)]; omega
      · intro b2 hb2
        exact h b2 (by simp [hb2])

theorem foldl_addBuf_getD (bufs : List (List ℚ)) (a : List ℚ) (m i : Nat)
    (h0 : a.length = m) (h : ∀ b ∈ bufs, b.length = m) (hi : i < m) :
    (bufs.foldl addBuf a).getD i 0 = a.getD i 0 + (bufs.map (fun b => b.getD i 0)).sum := by
  induction bufs generalizing a with
  | nil => simp
  | cons b rest ih =>
      have hb : b.length = m := h b (by simp)
      have hlen : (addBuf a b).length = m := by
        rw [addBuf_length, h0, hb]; omega
      rw [List.foldl_cons, ih (addBuf a b) hlen (fun b2 hb2 => h b2 (by simp [hb2])),
        addBuf_getD a b i (by omega) (by omega)]
      simp only [List.map_cons, List.sum_cons]
      ring

theorem sumBufs_length (bufs : List (List ℚ)) (m : Nat)
    (hne : bufs ≠ []) (h : ∀ b ∈ bufs, b.length = m) :
    (sumBufs bufs).length = m := by
  cases bufs with
  | nil => exact absurd rfl hne
  | cons b rest =>
      exact foldl_addBuf_length rest b m (h b (by simp)) (fun b2 hb2 => h b2 (by simp [hb2]))

theorem sumBufs_getD (bufs : List (List ℚ)) (m i : Nat)
    (hne : bufs ≠ []) (h : ∀ b ∈ bufs, b.length = m) (hi : i < m) :
    (sumBufs bufs).getD i 0 = (bufs.map (fun b => b.getD i 0)).sum := by
  cases bufs with
  | nil => exact absurd rfl hne
  | cons b rest =>
      show (rest.foldl addBuf b).getD i 0 = _
      rw [foldl_addBuf_getD rest b m i (h b (by simp))
        (fun b2 hb2 => h b2 (by simp [hb2])) hi]
      simp

/-- C1: for every world size N at least 1 and every buffer, allreduce with
op=sum returns at every rank the exact elementwise sum of all contributions,
allreduce with op=average returns that sum divided once by N, and repeated
runs over the same contributions produce bitwise identical results (the
model is a deterministic function of the contributions). -/
theorem allreduce_exact (bufs : List (List ℚ)) (m i : Nat)
    (hne : bufs ≠ []) (hlen : ∀ b ∈ bufs, b.length = m) (hi : i < m) :
    (allreduce ReduceOp.sum bufs).getD i 0 = (bufs.map (fun b => b.getD i 0)).sum ∧
    (allreduce ReduceOp.average bufs).getD i 0
      = (bufs.map (fun b => b.getD i 0)).sum / (bufs.length : ℚ) ∧
    ∀ bufs2 : List (List ℚ), bufs2 = bufs →
      allreduce ReduceOp.sum bufs2 = allreduce ReduceOp.sum bufs ∧
      allreduce ReduceOp.average bufs2 = allreduce ReduceOp.average bufs := by
  have hslen : (sumBufs bufs).length = m := sumBufs_length bufs m hne hlen
  refine ⟨sumBufs_getD bufs m i hne hlen hi, ?_, ?_⟩
  · show ((sumBufs bufs).map (fun x => x / (bufs.length : ℚ))).getD i 0 = _
    have h2 : i < ((sumBufs bufs).map (fun x => x / (bufs.length : ℚ))).length := by
      rw [List.length_map, hslen]; exact hi
    rw [List.getD_eq_getElem _ _ h2, List.getElem_map,
      ← List.getD_eq_getElem (sumBufs bufs) 0 (by rw [hslen]; exact hi),
      sumBufs_getD bufs m i hne hlen hi]
  · intro bufs2 hb
    subst hb
    exact ⟨rfl, rfl⟩

/-- C1 witness: a concrete two rank, two element instance. -/
theorem allreduce_exact_witness :
    (allreduce ReduceOp.sum [[1, 2], [3, 4]]).getD 0 0
      = (([[1, 2], [3, 4]] : List (List ℚ)).map (fun b => b.getD 0 0)).sum :=
  (allreduce_exact [[1, 2], [3, 4]] 2 0 (by decide) (by decide) (by decide)).1

/-- C2: for every topology and every rank r, the neighborAllreduce result at
r is a function only of the contributions of the in-neighbors of r: two runs
whose contributions differ only at a rank q outside inNeighbors r give the
same result at r; and the call updates no entry of the visible state other
than the caller's, so it delivers nothing to out-neighbors. -/
theorem neighborAllreduce_noninterference (T : Topology) (w : Nat → ℚ)
    (c1 c2 : Nat → List ℚ) (r q : Nat)
    (hq : q ∉ T.inNeighbors r) (hagree : ∀ s, s ≠ q → c1 s = c2 s) :
    neighborAllreduce T w c1 r = neighborAllreduce T w c2 r ∧
    ∀ (st : Nat → List ℚ) (p : Nat), p ≠ r →
      neighborAllreduceStep T w c1 st r p = st p := by
  constructor
  · unfold neighborAllreduce
    congr 1
    apply List.map_congr_left
    intro s hs
    rw [hagree s (fun hsq => hq (hsq ▸ hs))]
  · intro st p hp
    unfold neighborAllreduceStep
    simp [hp]

/-- C2 witness: the runs demoC1 and demoC2 differ only at rank 5, which is
not an in-neighbor of rank 0 in demoTopology, and the results agree. -/
theorem neighborAllreduce_noninterference_witness :
    neighborAllreduce demoTopology demoW demoC1 0
      = neighborAllreduce demoTopology demoW demoC2 0 :=
  (neighborAllreduce_noninterference demoTopology demoW demoC1 demoC2 0 5
    (by decide) (by intro s hs; simp [demoC1, demoC2, hs])).1

/-- C3: with no caller weights, neighborAllreduce uses the uniform weight one
over the number of in-neighbors; on the undirected 3-rank ring with
self-loops where each rank holds its rank index, the default-weight result at
rank 1 is the scalar 1; and caller-supplied non-negative weights are applied
exactly as given, with no renormalization: the result is the plain weighted
sum of the in-neighbor contributions. -/
theorem neighborAllreduce_weights :
    neighborAllreduceDefault ringTopology3 ringContrib 1 = [1] ∧
    (∀ (T : Topology) (r s : Nat),
      defaultWeights T r s = 1 / ((T.inNeighbors r).length : ℚ)) ∧
    (∀ (T : Topology) (w : Nat → ℚ) (contrib : Nat → List ℚ) (r m i : Nat),
      (∀ s ∈ T.inNeighbors r, 0 ≤ w s) →
      (∀ s ∈ T.inNeighbors r, (contrib s).length = m) →
      T.inNeighbors r ≠ [] → i < m →
      (neighborAllreduce T w contrib r).getD i 0
        = ((T.inNeighbors r).map (fun s => w s * (contrib s).getD i 0)).sum) := by
  refine ⟨?_, fun T r s => rfl, ?_⟩
  · simp [neighborAllreduceDefault, neighborAllreduce, ringTopology3, ringContrib,
      defaultWeights, sumBufs, addBuf, scaleBuf]
    norm_num
  · intro T w contrib r m i hw hlen hne hi
    unfold neighborAllreduce
    rw [sumBufs_getD _ m i ?hmapne ?hmaplen hi]
    · rw [List.map_map]
      apply congrArg List.sum
      apply List.map_congr_left
      intro s hs
      show (scaleBuf (w s) (contrib s)).getD i 0 = _
      rw [scaleBuf_getD _ _ i (by rw [hlen s hs]; exact hi)]
    case hmapne =>
      intro hmap
      exact hne (List.map_eq_nil_iff.mp hmap)
    case hmaplen =>
      intro b hb
      obtain ⟨s, hs, rfl⟩ := List.mem_map.mp hb
      rw [scaleBuf_length]
      exact hlen s hs

/-- C3 witness: on the ring topology the weighted result at rank 1 with
constant weight two equals the weighted sum of its in-neighbor
contributions, and the default scenario value is instantiated. -/
theorem neighborAllreduce_weights_witness :
    (neighborAllreduce ringTopology3 demoW2 ringContrib 1).getD 0 0
      = ((ringTopology3.inNeighbors 1).map
          (fun s => demoW2 s * (ringContrib s).getD 0 0)).sum :=
  neighborAllreduce_weights.2.2 ringTopology3 demoW2 ringContrib 1 1 0
    (by decide) (by decide) (by decide) (by decide)

/-- C4: init establishes rank and world size exactly once per process
lifetime; a second init without an intervening shutdown fails with
AlreadyInitialized, and rank and size called before init or after shutdown
fail with NotInitialized. -/
theorem init_exactly_once :
    rank freshRegistry = Except.error BfError.notInitialized ∧
    size freshRegistry = Except.error BfError.notInitialized ∧
    (∀ (r n r2 n2 : Nat) (reg reg2 : RankRegistry),
      init r n reg = Except.ok reg2 →
      init r2 n2 reg2 = Except.error BfError.alreadyInitialized ∧
      rank reg2 = Except.ok r ∧ size reg2 = Except.ok n) ∧
    (∀ reg reg2 : RankRegistry, shutdown reg = Except.ok reg2 →
      rank reg2 = Except.error BfError.notInitialized ∧
      size reg2 = Except.error BfError.notInitialized) := by
  refine ⟨rfl, rfl, ?_, ?_⟩
  · intro r n r2 n2 reg reg2 h
    cases hst : reg.st with
    | some p => simp [init, hst] at h
    | none =>
        simp only [init, hst] at h
        cases h
        exact ⟨rfl, rfl, rfl⟩
  · intro reg reg2 h
    cases hst : reg.st with
    | none => simp [shutdown, hst] at h
    | some p =>
        simp only [shutdown, hst] at h
        cases h
        exact ⟨rfl, rfl⟩

/-- C4 witness: a concrete lifecycle on rank 0 of a 2 rank world. -/
theorem init_exactly_once_witness :
    init 1 3 ⟨some (0, 2)⟩ = Except.error BfError.alreadyInitialized ∧
    rank ⟨some (0, 2)⟩ = Except.ok 0 ∧ size ⟨some (0, 2)⟩ = Except.ok 2 :=
  init_exactly_once.2.2.1 0 2 1 3 freshRegistry ⟨some (0, 2)⟩ rfl

theorem applyAccum_length (v : List ℚ) (a : Accum) :
    (applyAccum v a).length = min v.length a.buffer.length := by
  rw [applyAccum, addBuf_length, scaleBuf_length]

theorem applyAccum_getD (v : List ℚ) (a : Accum) (i : Nat)
    (hv : i < v.length) (hb : i < a.buffer.length) :
    (applyAccum v a).getD i 0 = v.getD i 0 + a.weight * a.buffer.getD i 0 := by
  rw [applyAccum, addBuf_getD v _ i hv (by rw [scaleBuf_length]; exact hb),
    scaleBuf_getD _ _ i hb]

theorem foldl_applyAccum_length (msgs : List Accum) (v : List ℚ) (m : Nat)
    (hv : v.length = m) (hm : ∀ a ∈ msgs, a.buffer.length = m) :
    (msgs.foldl applyAccum v).length = m := by
  induction msgs generalizing v with
  | nil => simpa using hv
  | cons a rest ih =>
      rw [List.foldl_cons]
      apply ih
      · rw [applyAccum_length, hv, hm a (by simp)]; omega
      · intro a2 ha2
        exact hm a2 (by simp [ha2])

theorem foldl_applyAccum_getD (msgs : List Accum) (v : List ℚ) (m i : Nat)
    (hv : v.length = m) (hm : ∀ a ∈ msgs, a.buffer.length = m) (hi : i < m) :
    (msgs.foldl applyAccum v).getD i 0
      = v.getD i 0 + (msgs.map (fun a => a.weight * a.buffer.getD i 0)).sum := by
  induction msgs generalizing v with
  | nil => simp
  | cons a rest ih =>
      have ha : a.buffer.length = m := hm a (by simp)
      have hlen : (applyAccum v a).length = m := by
        rw [applyAccum_length, hv, ha]; omega
      rw [List.foldl_cons, ih (applyAccum v a) hlen (fun a2 ha2 => hm a2 (by simp [ha2])),
        applyAccum_getD v a i (by omega) (by omega)]
      simp only [List.map_cons, List.sum_cons]
      ring

theorem deliverAll_fields (win : Window) (msgs : List Accum) :
    (deliverAll win msgs).pending = win.pending ++ msgs ∧
    (deliverAll win msgs).value = win.value ∧
    (deliverAll win msgs).localSnapshot = win.localSnapshot ∧
    (deliverAll win msgs).version = win.version := by
  induction msgs generalizing win with
  | nil => simp [deliverAll]
  | cons a rest ih =>
      have h := ih (winAccumulateRecv win a)
      simpa [deliverAll, winAccumulateRecv] using h

/-- C5: for a synchronized window accumulated into by a set of senders, the
delta between the value returned by winSyncThenCollect after all sends are
delivered and the value before equals the sum over senders of weight times
contribution, and the outcome is the same for every delivery order of the
sends. -/
theorem winAccumulate_conservation (win : Window) (msgs msgs2 : List Accum)
    (m i : Nat) (hp : win.pending = []) (hv : win.value.length = m)
    (hm : ∀ a ∈ msgs, a.buffer.length = m) (hi : i < m)
    (hperm : msgs2.Perm msgs) :
    ((winSyncThenCollect (deliverAll win msgs)).1).getD i 0 - win.value.getD i 0
      = (msgs.map (fun a => a.weight * a.buffer.getD i 0)).sum ∧
    winSyncThenCollect (deliverAll win msgs2) = winSyncThenCollect (deliverAll win msgs) := by
  have hm2 : ∀ a ∈ msgs2, a.buffer.length = m := fun a ha => hm a (hperm.mem_iff.mp ha)
  have key : ∀ (ms : List Accum), (∀ a ∈ ms, a.buffer.length = m) →
      (winSyncThenCollect (deliverAll win ms)).1 = ms.foldl applyAccum win.value := by
    intro ms hms
    obtain ⟨hpend, hval, hsnap, hver⟩ := deliverAll_fields win ms
    show (deliverAll win ms).pending.foldl applyAccum (deliverAll win ms).value = _
    rw [hpend, hval, hp, List.nil_append]
  constructor
  · rw [key msgs hm, foldl_applyAccum_getD msgs win.value m i hv hm hi]
    ring
  · obtain ⟨hpend, hval, hsnap, hver⟩ := deliverAll_fields win msgs
    obtain ⟨hpend2, hval2, hsnap2, hver2⟩ := deliverAll_fields win msgs2
    have hfold : msgs2.foldl applyAccum win.value = msgs.foldl applyAccum win.value := by
      apply List.ext_getElem
      · rw [foldl_applyAccum_length msgs2 win.value m hv hm2,
          foldl_applyAccum_length msgs win.value m hv hm]
      · intro j h1 h2
        have hj : j < m := by
          rw [foldl_applyAccum_length msgs2 win.value m hv hm2] at h1
          exact h1
        rw [← List.getD_eq_getElem _ 0 h1, ← List.getD_eq_getElem _ 0 h2,
          foldl_applyAccum_getD msgs2 win.value m j hv hm2 hj,
          foldl_applyAccum_getD msgs win.value m j hv hm hj,
          ((hperm.map (fun a => a.weight * a.buffer.getD j 0)).sum_eq)]
    show (_, _) = (_, _)
    rw [hpend, hval, hver, hpend2, hval2, hver2, hp, List.nil_append, List.nil_append, hfold]

/-- C5 witness: two messages delivered to a synchronized scalar window in
either order produce the same collected value and window. -/
theorem winAccumulate_conservation_witness :
    winSyncThenCollect (deliverAll demoWindow [demoAccB, demoAccA])
      = winSyncThenCollect (deliverAll demoWindow [demoAccA, demoAccB]) :=
  (winAccumulate_conservation demoWindow [demoAccA, demoAccB] [demoAccB, demoAccA]
    1 0 (by decide) (by decide) (by decide) (by decide) (by decide)).2

/-- C6: winSyncThenCollect is an idempotent read: two consecutive
synchronizes with no accumulation delivered in between return the same
buffer; a delivered accumulation leaves the snapshot seen by outside reads
unchanged, so reads outside the synchronize never observe a partially
accumulated state and always see the last synchronized snapshot. -/
theorem winSync_read_idempotent :
    (∀ win : Window,
      (winSyncThenCollect (winSyncThenCollect win).2).1 = (winSyncThenCollect win).1) ∧
    (∀ (win : Window) (a : Accum),
      winRead (winAccumulateRecv win a) = winRead win) ∧
    (∀ win : Window, winRead (winSyncThenCollect win).2 = (winSyncThenCollect win).1) := by
  refine ⟨?_, ?_, ?_⟩
  · intro win
    simp [winSyncThenCollect]
  · intro win a
    simp [winRead, winAccumulateRecv]
  · intro win
    simp [winRead, winSyncThenCollect]

theorem getD_map_const (l : List (List ℚ)) (c d : Except BfError (List ℚ)) (r : Nat)
    (h : r < l.length) : (l.map (fun _ => c)).getD r d = c := by
  have h2 : r < (l.map (fun _ => c)).length := by rw [List.length_map]; exact h
  rw [List.getD_eq_getElem _ _ h2, List.getElem_map]

/-- C7: when the buffers passed to allreduce under one name have mismatched
shapes, the call fails with ShapeMismatch at every rank, not only the
mismatched one, the failure is detected before any network transfer, and no
rank receives a substituted default result. -/
theorem allreduce_shape_mismatch (op : ReduceOp) (bufs : List (List ℚ))
    (b1 b2 : List ℚ) (h1 : b1 ∈ bufs) (h2 : b2 ∈ bufs)
    (hne : b1.length ≠ b2.length) :
    (∀ r, r < bufs.length →
      (allreduceChecked op bufs).1.getD r (Except.ok []) = Except.error BfError.shapeMismatch) ∧
    (allreduceChecked op bufs).2 = false := by
  have hall : bufs.all (fun b => b.length == (bufs.headD []).length) = false := by
    by_contra hc
    rw [Bool.not_eq_false, List.all_eq_true] at hc
    have e1 : b1.length = (bufs.headD []).length := by simpa using hc b1 h1
    have e2 : b2.length = (bufs.headD []).length := by simpa using hc b2 h2
    exact hne (e1.trans e2.symm)
  constructor
  · intro r hr
    simp only [allreduceChecked, hall, Bool.false_eq_true, if_false]
    exact getD_map_const bufs _ _ r hr
  · simp only [allreduceChecked, hall, Bool.false_eq_true, if_false]

/-- C7 witness: two ranks with buffers of lengths one and two both receive
ShapeMismatch and no network transfer happens. -/
theorem allreduce_shape_mismatch_witness :
    (allreduceChecked ReduceOp.sum [[1], [2, 3]]).1.getD 0 (Except.ok [])
      = Except.error BfError.shapeMismatch ∧
    (allreduceChecked ReduceOp.sum [[1], [2, 3]]).2 = false :=
  ⟨(allreduce_shape_mismatch ReduceOp.sum [[1], [2, 3]] [1] [2, 3]
      (by decide) (by decide) (by decide)).1 0 (by decide),
    (allreduce_shape_mismatch ReduceOp.sum [[1], [2, 3]] [1] [2, 3]
      (by decide) (by decide) (by decide)).2⟩

end Bluefog

namespace IbfRun

/-- The argparse namespace produced by the parser of
bluefog/run/interactive_run.py, lines 35 to 87.  Field np is the value of
the -np (long form --num-proc) flag, of type int, absent when the flag is
missing; command is the trailing REMAINDER argument list. -/
structure ParsedArgs where
  version : Bool
  np : Option Int
  sshPort : Option Int
  daemonize : Bool
  nic : Option String
  useInfiniband : Bool
  profile : String
  hosts : Option String
  hostfile : Option String
  extraFlags : Option String
  command : List String
deriving DecidableEq

/-- Python truthiness of an optional integer: None and 0 are falsy, as in
the check `not parsed_args.np` on line 84 of interactive_run.py. -/
def truthy (o : Option Int) : Bool :=
  match o with
  | none => false
  | some n => n != 0

/-- The message of the parser error raised on line 85 of
interactive_run.py. -/
def npRequiredError : String := "argument -np/--num-proc is required"

/-- Embedding of the requirement check of parse_args, interactive_run.py
lines 84 to 87: after argparse has filled the namespace, the runner errors
out when neither the version flag nor a truthy -np value is present, and
otherwise returns the namespace. -/
def parse_args (a : ParsedArgs) : Except String ParsedArgs :=
  if !a.version && !truthy a.np then Except.error npRequiredError else Except.ok a

/-- Observable steps taken by main (interactive_run.py lines 91 to 203).
The sshCheck and execMpirun constructors name the steps of the
multi-machine path on lines 148 to 203, which sits after the unconditional
raise on line 146. -/
inductive Event where
  | printVersion
  | hostResolution
  | checkOpenMpi
  | checkIpyparallel
  | runSubprocess (cmd : String)
  | popenSubprocess (cmd : String)
  | sleepSeconds (n : Nat)
  | sshCheck
  | execMpirun (cmd : String)
deriving DecidableEq

/-- How a run of main terminates: normal exit with a status code, or one of
the raises in interactive_run.py (Exception on lines 103 and 112,
ValueError on line 120, RuntimeError on line 146). -/
inductive Outcome where
  | exited (code : Nat)
  | exceptionRaised (msg : String)
  | valueErrorRaised (msg : String)
  | runtimeErrorRaised (msg : String)
deriving DecidableEq

/-- Modelled from the spec: the env_util and network_util helper modules
imported by interactive_run.py are not under src/; per section 1 of the
spec, process launching and host resolution are external collaborators.
Their answers are therefore inputs of the model: whether Open MPI and
ipyparallel are installed, the resolved host names, and the subset that
network_util.filter_local_addresses reports as remote. -/
structure SysEnv where
  openMpiInstalled : Bool
  ipyparallelInstalled : Bool
  allHostNames : List String
  remoteHostNames : List String
deriving DecidableEq

/-- First line of the Exception message raised when Open MPI is missing
(interactive_run.py line 103). -/
def openMpiError : String :=
  "ibfrun convenience script currently only supports Open MPI."

/-- First line of the Exception message raised when ipyparallel is missing
(interactive_run.py line 112). -/
def ipyparallelError : String :=
  "ibfrun is based on the ipyparallel package."

/-- The RuntimeError message of interactive_run.py line 146. -/
def multiMachineError : String := "ibfrun does not support on multiple machine yet."

/-- The single trailing command token, or the empty string when the
command list is not a single token (in the Python source the element
args.command[0] is only read after the length check has passed). -/
def commandToken (cmd : List String) : String :=
  match cmd with
  | [c] => c
  | _ => ""

/-- The validity test of interactive_run.py line 119: the trailing command
must be exactly one token equal to start or stop. -/
def validCommand (cmd : List String) : Bool :=
  cmd.length == 1 && (commandToken cmd == "start" || commandToken cmd == "stop")

/-- The ValueError message of interactive_run.py lines 120 to 121, with the
offending command list rendered into it. -/
def invalidCommandMsg (cmd : List String) : String :=
  "The last command has to be either start or stop, but it is "
    ++ toString cmd ++ " now."

/-- The shell command run on line 135 of interactive_run.py. -/
def nbextensionCommand : String := "ipcluster nbextension enable --user"

/-- The ipcontroller command template of interactive_run.py lines 125
to 126. -/
def ipcontrollerCommand (profile : String) : String :=
  "ipcontroller --profile " ++ profile

/-- The ipengine command template of interactive_run.py lines 127 to 133. -/
def ipengineCommand (np : Int) (command profile : String) : String :=
  "bfrun -np " ++ toString np ++ " ipengine " ++ command ++ " --profile " ++ profile

/-- Embedding of main, interactive_run.py lines 91 to 203: the version
fast path (lines 94 to 96), host resolution (lines 98 and 99), the Open
MPI and ipyparallel installation checks (lines 102 to 115), the trailing
command validation (lines 119 to 122), the local single-machine launch
path (lines 124 to 142) and the unconditional RuntimeError for remote
hosts (line 146).  The code on lines 148 to 203 (SSH reachability check
and mpirun construction and execution) follows the raise and is never
executed, so no branch of this function emits its events. -/
def main (a : ParsedArgs) (env : SysEnv) : List Event × Outcome :=
  if a.version then
    ([Event.printVersion], Outcome.exited 0)
  else if !env.openMpiInstalled then
    ([Event.hostResolution, Event.checkOpenMpi], Outcome.exceptionRaised openMpiError)
  else if !env.ipyparallelInstalled then
    ([Event.hostResolution, Event.checkOpenMpi, Event.checkIpyparallel],
      Outcome.exceptionRaised ipyparallelError)
  else if !validCommand a.command then
    ([Event.hostResolution, Event.checkOpenMpi, Event.checkIpyparallel],
      Outcome.valueErrorRaised (invalidCommandMsg a.command))
  else if env.remoteHostNames.isEmpty then
    if commandToken a.command = "start" then
      ([Event.hostResolution, Event.checkOpenMpi, Event.checkIpyparallel,
        Event.runSubprocess nbextensionCommand,
        Event.popenSubprocess (ipcontrollerCommand a.profile),
        Event.sleepSeconds 3,
        Event.runSubprocess
          (ipengineCommand (a.np.getD 0) (commandToken a.command) a.profile)],
        Outcome.exited 0)
    else
      ([Event.hostResolution, Event.checkOpenMpi, Event.checkIpyparallel,
        Event.runSubprocess
          (ipengineCommand (a.np.getD 0) (commandToken a.command) a.profile)],
        Outcome.exited 0)
  else
    ([Event.hostResolution, Event.checkOpenMpi, Event.checkIpyparallel],
      Outcome.runtimeErrorRaised multiMachineError)

/-- An event that launches a subprocess or replaces the process image. -/
def isLaunchEvent : Event → Bool
  | Event.runSubprocess _ => true
  | Event.popenSubprocess _ => true
  | Event.execMpirun _ => true
  | _ => false

/-- An event belonging to the dead multi-machine path after the raise on
line 146 of interactive_run.py. -/
def isDeadPathEvent : Event → Bool
  | Event.sshCheck => true
  | Event.execMpirun _ => true
  | _ => false

/-- Recognizer of the ValueError outcome. -/
def isValueError : Outcome → Bool
  | Outcome.valueErrorRaised _ => true
  | _ => false

/-- Recognizer of the RuntimeError outcome. -/
def isRuntimeError : Outcome → Bool
  | Outcome.runtimeErrorRaised _ => true
  | _ => false

/-- Concrete arguments: -np 0 with a start command and no version flag. -/
def argsNpZero : ParsedArgs :=
  ⟨false, some 0, none, false, none, false, "bluefog", none, none, none, ["start"]⟩

/-- Concrete arguments: the version flag alone, with an empty trailing
command. -/
def argsVersionOnly : ParsedArgs :=
  ⟨true, none, none, false, none, false, "bluefog", none, none, none, []⟩

/-- Concrete arguments: -np 2 with an invalid trailing command. -/
def argsBadCommand : ParsedArgs :=
  ⟨false, some 2, none, false, none, false, "bluefog", none, none, none, ["restart"]⟩

/-- Concrete arguments: -np 2 with a valid start command. -/
def argsStart : ParsedArgs :=
  ⟨false, some 2, none, false, none, false, "bluefog", none, none, none, ["start"]⟩

/-- A fully local environment with both dependencies installed. -/
def envLocal : SysEnv := ⟨true, true, ["localhost"], []⟩

/-- An environment whose resolved host list contains one remote host. -/
def envRemote : SysEnv := ⟨true, true, ["localhost", "worker1"], ["worker1"]⟩

end IbfRun

namespace IbfRun

/-- C8 counterexample: an explicit -np value of 0 with no version flag still
triggers the parser error, because the source tests Python truthiness of
args.np, so the error does not hold if and only if a -np value was
supplied. -/
theorem parse_args_np_zero_counterexample :
    argsNpZero.np = some 0 ∧
    parse_args argsNpZero = Except.error npRequiredError :=
  ⟨rfl, rfl⟩

/-- C8 (amended): parse_args terminates with the parser error exactly when
the version flag is unset and args.np is falsy, that is absent or equal to
zero; and with the version flag set, main prints the version and exits with
status 0 before host resolution and before the installation checks. -/
theorem parse_args_requires_np (a : ParsedArgs) (env : SysEnv) :
    (parse_args a = Except.error npRequiredError ↔
      a.version = false ∧ truthy a.np = false) ∧
    (a.version = true → main a env = ([Event.printVersion], Outcome.exited 0)) := by
  constructor
  · cases hv : a.version <;> cases hn : truthy a.np <;>
      simp [parse_args, hv, hn]
  · intro hv
    simp [main, hv]

/-- C8 witness: version runs exit immediately with only the version print. -/
theorem parse_args_requires_np_witness :
    main argsVersionOnly envLocal = ([Event.printVersion], Outcome.exited 0) :=
  (parse_args_requires_np argsVersionOnly envLocal).2 rfl

/-- C9 counterexample: with the version flag set and an empty trailing
command, main exits with status 0 and raises no ValueError, although the
trailing command is not a single start or stop token. -/
theorem main_version_skips_validation_counterexample :
    argsVersionOnly.command = ([] : List String) ∧
    isValueError (main argsVersionOnly envLocal).2 = false ∧
    (main argsVersionOnly envLocal).2 = Outcome.exited 0 :=
  ⟨rfl, rfl, rfl⟩

/-- C9 (amended): when the version flag is unset and both installation
checks pass, main raises ValueError exactly when the trailing command is not
one token equal to start or stop, and in that case no subprocess is launched
before the raise. -/
theorem main_command_validation (a : ParsedArgs) (env : SysEnv)
    (hv : a.version = false) (hm : env.openMpiInstalled = true)
    (hi : env.ipyparallelInstalled = true) :
    (isValueError (main a env).2 = true ↔ validCommand a.command = false) ∧
    (validCommand a.command = false →
      (main a env).1.all (fun e => !isLaunchEvent e) = true) := by
  cases hc : validCommand a.command with
  | false =>
      constructor
      · simp [main, hv, hm, hi, hc, isValueError]
      · intro _
        simp [main, hv, hm, hi, hc, isLaunchEvent]
  | true =>
      have houtcome : isValueError (main a env).2 = false := by
        by_cases hst : commandToken a.command = "start" <;>
          cases hr : env.remoteHostNames.isEmpty <;>
            simp [main, hv, hm, hi, hc, hst, hr, isValueError]
      constructor
      · rw [houtcome]
        constructor
        · intro h; simp at h
        · intro h; simp at h
      · intro h; simp at h

/-- C9 witness: a concrete invalid command is rejected with ValueError. -/
theorem main_command_validation_witness :
    isValueError (main argsBadCommand envLocal).2 = true :=
  (main_command_validation argsBadCommand envLocal rfl rfl rfl).1.mpr rfl

/-- C10 counterexample: a run whose resolved host list contains the remote
host worker1 but whose trailing command is invalid raises ValueError, not
RuntimeError, so a remote host name does not unconditionally lead to the
RuntimeError raise. -/
theorem main_remote_counterexample :
    envRemote.remoteHostNames = ["worker1"] ∧
    isValueError (main argsBadCommand envRemote).2 = true ∧
    isRuntimeError (main argsBadCommand envRemote).2 = false :=
  ⟨rfl, rfl, rfl⟩

/-- C10 (amended): once execution reaches the host dispatch, that is, the
version flag is unset, both installation checks pass and the trailing
command is valid, a non-empty remote host list makes main raise the
RuntimeError of line 146 while launching no subprocess; and no run of main
under any arguments and environment ever performs the SSH reachability
check or executes an mpirun command, the multi-machine path after the raise
being unreachable. -/
theorem main_multi_machine_guard (a : ParsedArgs) (env : SysEnv)
    (hv : a.version = false) (hm : env.openMpiInstalled = true)
    (hi : env.ipyparallelInstalled = true) (hc : validCommand a.command = true)
    (hr : env.remoteHostNames ≠ []) :
    (main a env).2 = Outcome.runtimeErrorRaised multiMachineError ∧
    (main a env).1.all (fun e => !isLaunchEvent e) = true ∧
    ∀ (a2 : ParsedArgs) (env2 : SysEnv),
      (main a2 env2).1.all (fun e => !isDeadPathEvent e) = true := by
  have hre : env.remoteHostNames.isEmpty = false := by
    cases h : env.remoteHostNames with
    | nil => exact absurd h hr
    | cons x xs => rfl
  refine ⟨?_, ?_, ?_⟩
  · simp [main, hv, hm, hi, hc, hre]
  · simp [main, hv, hm, hi, hc, hre, isLaunchEvent]
  · intro a2 env2
    unfold main
    repeat' split
    all_goals rfl

/-- C10 witness: a valid start command with a remote host raises the
multi-machine RuntimeError. -/
theorem main_multi_machine_guard_witness :
    (main argsStart envRemote).2 = Outcome.runtimeErrorRaised multiMachineError :=
  (main_multi_machine_guard argsStart envRemote rfl rfl rfl rfl (by decide)).1

end IbfRun
